import Mathlib

/-!
# umkdtimg: a shallow embedding of `src/umkdtimg.c`

The program unpacks a DTBO container image: it reads a 32-byte big-endian
header, walks the entry table it describes and stores the payload of each entry
in a file of its own.

Modelling conventions.

* A file is the list of its bytes.  C strings (`char *`) are lists of
  characters.
* `uint32_t` values are naturals below `2 ^ 32`; arithmetic on them is taken
  modulo `2 ^ 32`.  `int` values are integers; the conversion of a wider value
  to `int` keeps the low 32 bits in two's complement (`toInt32`).  `off_t` and
  `size_t` are 64 bits wide (LP64), which no value of the program exceeds.
* Memory returned by `malloc` is not initialised: its contents are the bytes
  of an arbitrary stream `junk`, which is also what a load past the end of a
  buffer yields.
* The file system is a map from files to their contents (`Store`); `main`
  takes the one there is before the run and yields the one there is after it.
  The input file is opened by name at every read, so what an earlier
  extraction wrote into it is what a later read sees.  Which file a path
  leads to, and whether an output file can be created and written, are
  parameters (`Env`).
* `free` of a block that `read_file` has freed already is a double free: the
  run ends there without a result (`Exit.double_free`).
* `read(2)` on a regular file and `write(2)` transfer what is asked for and
  available, up to `MAX_RW_COUNT` bytes in one call (Linux).
* What the program prints and which system calls it makes are recorded as a
  list of events.
-/

namespace Umkdtimg

/-! ## Bytes, machine integers, byte order -/

abbrev Byte := Fin 256

/-- The value of `DT_TABLE_MAGIC`. -/
def DT_TABLE_MAGIC : Nat := 0xd7b7ab1e

/-- The value of `EINVAL` in `<errno.h>`. -/
def EINVAL : Int := 22

/-- The most bytes one `read` or `write` call transfers on Linux
(`INT_MAX & PAGE_MASK`, 4 KiB pages). -/
def MAX_RW_COUNT : Nat := 0x7ffff000

/-- Conversion to `int`: the low 32 bits, read in two's complement. -/
def toInt32 (x : Nat) : Int :=
  if x % 2 ^ 32 < 2 ^ 31 then ((x % 2 ^ 32 : Nat) : Int)
  else ((x % 2 ^ 32 : Nat) : Int) - 2 ^ 32

/-- Byte order of the machine the program runs on. -/
inductive Host
  | little
  | big
  deriving DecidableEq, Repr

/-- The `uint32_t` a load of four consecutive bytes of memory yields. -/
def load32 (h : Host) (b0 b1 b2 b3 : Byte) : Nat :=
  match h with
  | Host.little => b0.val + b1.val * 2 ^ 8 + b2.val * 2 ^ 16 + b3.val * 2 ^ 24
  | Host.big => b0.val * 2 ^ 24 + b1.val * 2 ^ 16 + b2.val * 2 ^ 8 + b3.val

/-- Reversal of the four bytes of a `uint32_t`. -/
def bswap32 (x : Nat) : Nat :=
  (x % 2 ^ 8) * 2 ^ 24 + (x / 2 ^ 8 % 2 ^ 8) * 2 ^ 16
    + (x / 2 ^ 16 % 2 ^ 8) * 2 ^ 8 + (x / 2 ^ 24 % 2 ^ 8)

/-- The function `htobe32` of `<endian.h>`: a byte swap on a little-endian
host, the identity on a big-endian one. -/
def htobe32 (h : Host) (x : Nat) : Nat :=
  match h with
  | Host.little => bswap32 x
  | Host.big => x

/-- Big-endian decoding of four bytes (the on-disk encoding of the format). -/
def be32 (b0 b1 b2 b3 : Byte) : Nat :=
  b0.val * 2 ^ 24 + b1.val * 2 ^ 16 + b2.val * 2 ^ 8 + b3.val

/-- Big-endian decoding of the four bytes of `data` at offset `k`; defined
when all four bytes exist. -/
def be32At (data : List Byte) (k : Nat) : Option Nat :=
  match data.drop k with
  | b0 :: b1 :: b2 :: b3 :: _ => some (be32 b0 b1 b2 b3)
  | _ => none

/-! ## Memory -/

/-- The contents of a fresh `malloc (n)` block. -/
def malloc (junk : Nat → Byte) (n : Nat) : List Byte :=
  (List.range n).map junk

/-- The byte a load at index `k` of a buffer yields. -/
def byteAt (junk : Nat → Byte) (buf : List Byte) (k : Nat) : Byte :=
  buf.getD k (junk k)

/-- The expression `htobe32 (p->field)` for the 32-bit field at byte offset `k`
of the struct overlaid on `buf`. -/
def field (h : Host) (junk : Nat → Byte) (buf : List Byte) (k : Nat) : Nat :=
  htobe32 h (load32 h (byteAt junk buf k) (byteAt junk buf (k + 1))
    (byteAt junk buf (k + 2)) (byteAt junk buf (k + 3)))

/-! ## `read_file` -/

/-- What a call of `read_file` leaves: the `int` it returns, the destination
afterwards, and whether it has called `free (buf)`. -/
structure ReadResult where
  ret : Int
  buf : List Byte
  freed : Bool
  deriving DecidableEq

/-- The function `read_file`: `file` is the contents of `filename` (`none` when
it cannot be opened), `buf` the destination.  A failing `open` returns at
once; a negative `ret` after `lseek` or after `read` frees `buf` and returns
`ret`.  A read that reaches the end of the file transfers the bytes there are
and is no error: only a negative `ret` is. -/
def read_file (file : Option (List Byte)) (buf : List Byte) (offset : Int)
    (count : Nat) : ReadResult :=
  match file with
  | none => ⟨-1, buf, false⟩
  | some data =>
    -- ret = lseek(fd, offset, SEEK_SET)
    let ret : Int := if offset < 0 then -1 else toInt32 offset.toNat
    if ret < 0 then ⟨ret, buf, true⟩
    else
      -- ret = read(fd, buf, count)
      let n := min (min count (data.length - offset.toNat)) MAX_RW_COUNT
      let ret := toInt32 n
      if ret < 0 then ⟨ret, buf, true⟩
      else ⟨0, (data.drop offset.toNat).take n ++ buf.drop n, false⟩

/-! ## `printf` conversions -/

/-- The digits of `n` in base `b`, most significant first, at least one;
`fuel` bounds their number. -/
def digits (b : Nat) : Nat → Nat → List Char
  | 0, _ => []
  | fuel + 1, n =>
    if n < b then [Nat.digitChar n]
    else digits b fuel (n / b) ++ [Nat.digitChar (n % b)]

/-- Padding with zeros on the left up to a minimum width. -/
def zeroPad (w : Nat) (s : List Char) : List Char :=
  List.replicate (w - s.length) '0' ++ s

/-- The conversion `%0wd` of an `int`. -/
def fmt_d (w : Nat) (x : Int) : List Char :=
  if x < 0 then '-' :: zeroPad (w - 1) (digits 10 10 x.natAbs)
  else zeroPad w (digits 10 10 x.toNat)

/-- The conversion `%0wx` of a `uint32_t`. -/
def fmt_x (w : Nat) (x : Nat) : List Char :=
  zeroPad w (digits 16 8 (x % 2 ^ 32))

/-- The text `"%02d_0x%04x_0x%04x.dtb"` formats from `i + 1`, `id` and `rev`
for the loop counter `i`. -/
def file_name (i id rev : Nat) : List Char :=
  fmt_d 2 (toInt32 (i + 1)) ++ "_0x".data ++ fmt_x 4 id ++ "_0x".data
    ++ fmt_x 4 rev ++ ".dtb".data

/-- The string `realPath`: the directory, a `'/'` unless the directory ends in
one, and the file name. -/
def real_path (out_dir : List Char) (i id rev : Nat) : List Char :=
  if out_dir.getLast? = some '/' then out_dir ++ file_name i id rev
  else out_dir ++ "/".data ++ file_name i id rev

/-! ## The environment, the file system and the trace -/

/-- The file system: the contents of every file there is, by the name of the
file. -/
abbrev Store := List Char → Option (List Byte)

/-- What the run cannot control. -/
structure Env where
  /-- The byte order of the machine. -/
  host : Host
  /-- The contents of uninitialised memory. -/
  junk : Nat → Byte
  /-- The name of the file a path leads to: paths that lead to the same file
  (`x` and `./x`) have the same image. -/
  resolve : List Char → List Char
  /-- The paths at which `open (path, O_WRONLY | O_CREAT, 0755)` fails. -/
  open_fails : List Char → Bool
  /-- The paths at which `write` fails. -/
  write_fails : List Char → Bool

/-- How a run ends: `main` returns a value, or a block is freed twice and the
behaviour of the program is undefined from there on. -/
inductive Exit
  | returned (ret : Int)
  | double_free
  deriving DecidableEq

/-- The exit status of the process when `main` returns: the low eight bits of
the value; none after a double free. -/
def exit_status : Exit → Option Int
  | Exit.returned ret => some (ret % 256)
  | Exit.double_free => none

/-- The decoded header: `htobe32 (header->f)` for each field `f` of
`struct dt_table_header`. -/
structure dt_table_header where
  magic : Nat
  total_size : Nat
  header_size : Nat
  dt_entry_size : Nat
  dt_entry_count : Nat
  dt_entries_offset : Nat
  page_size : Nat
  version : Nat
  deriving DecidableEq, Repr

/-- What the run prints and which system calls it makes.  The events of the
entry walk carry the loop counter. -/
inductive Event
  /-- The function `show_help` and the message that follows it. -/
  | usage (msg : String)
  /-- The call `read_file (filename, dtbo_file, 0, dtbo_sz)`. -/
  | read_image (count : Nat)
  /-- The eight header lines; `valid` is the word printed after the magic. -/
  | header (h : dt_table_header) (valid : Bool)
  /-- The call `read_file (filename, entry, ppos, sizeof (struct dt_table_entry))`. -/
  | read_entry (i : Nat) (ppos : Int) (count : Nat)
  /-- The line `Found DTB #...`. -/
  | found (i id rev : Nat) (custom : List Nat) (size offset : Nat)
  /-- The call `read_file (filename, entry_contents, entry_offset, entry_size)`. -/
  | read_payload (i : Nat) (offset size : Nat)
  /-- The call `open (realPath, O_WRONLY | O_CREAT, 0755)`. -/
  | create (i : Nat) (path : List Char)
  /-- The bytes a successful `write` stored in the file. -/
  | write (i : Nat) (path : List Char) (bytes : List Byte)
  /-- The line `Stored DTB #...`. -/
  | stored (i id rev : Nat) (custom : List Nat)
  /-- A message on `stderr` before a `return`. -/
  | error (msg : String)
  deriving DecidableEq

/-- The loop counter an event of the entry walk belongs to. -/
def Event.entry : Event → Option Nat
  | Event.read_entry i _ _ => some i
  | Event.found i _ _ _ _ _ => some i
  | Event.read_payload i _ _ => some i
  | Event.create i _ => some i
  | Event.write i _ _ => some i
  | Event.stored i _ _ _ => some i
  | _ => none

/-- The result of `open (..., O_WRONLY | O_CREAT, 0755)` on the file system: a
missing file is created empty, an existing one is left as it is. -/
def Store.create (st : Store) (file : List Char) : Store :=
  fun p => if p = file then some ((st file).getD []) else st p

/-- The result of writing `bytes` at offset 0 of a file: the bytes replace the
start of the contents, what lies behind them stays. -/
def Store.write (st : Store) (file : List Char) (bytes : List Byte) : Store :=
  fun p => if p = file then some (bytes ++ ((st file).getD []).drop bytes.length)
    else st p

/-! ## The header -/

/-- The eight fields as the program reads them from `dtbo_file`. -/
def decode_header (h : Host) (junk : Nat → Byte) (buf : List Byte) : dt_table_header where
  magic := field h junk buf 0
  total_size := field h junk buf 4
  header_size := field h junk buf 8
  dt_entry_size := field h junk buf 12
  dt_entry_count := field h junk buf 16
  dt_entries_offset := field h junk buf 20
  page_size := field h junk buf 24
  version := field h junk buf 28

/-! ## The entry walk -/

/-- The outcome of one iteration of the loop over the entries: `abort` is how
the run ends inside the iteration, if it does. -/
structure Step where
  abort : Option Exit
  out : Store
  log : List Event

/-- The value of `ppos` in iteration `i`: `uint32_t` arithmetic, converted to
`int`. -/
def entry_pos (hdr : dt_table_header) (i : Nat) : Int :=
  toInt32 ((hdr.dt_entries_offset + (i % 2 ^ 32) * hdr.dt_entry_size % 2 ^ 32) % 2 ^ 32)

/-- The part of the loop body from `// Construct filename` on: the path is
built, the file opened and `entry_size` bytes of `entry_contents` written.
Each failure frees `entry` and `entry_contents` once and returns.
(The `mkdir` of a missing output directory before it is not modelled: whether
the file can be opened is `env.open_fails`.) -/
def store_dtb (env : Env) (out_dir : List Char) (i id rev : Nat) (custom : List Nat)
    (entry_size : Nat) (entry_contents : List Byte) (st : Store) : Step :=
  let realPath := real_path out_dir i id rev
  if env.open_fails realPath then
    ⟨some (Exit.returned (-1)), st, [Event.create i realPath, Event.error "Failed to create"]⟩
  else
    let st1 := st.create (env.resolve realPath)
    -- ret = write(fd, entry_contents, entry_size)
    let n := min entry_size MAX_RW_COUNT
    let ret : Int := if env.write_fails realPath then -1 else toInt32 n
    if ret < 0 then
      ⟨some (Exit.returned ret), st1, [Event.create i realPath,
        Event.error "Failed to store DT entry contents to file"]⟩
    else
      ⟨none, st1.write (env.resolve realPath) (entry_contents.take n),
        [Event.create i realPath, Event.write i realPath (entry_contents.take n),
          Event.stored i id rev custom]⟩

/-- How the run ends after a failed read of the payload: `main` frees `entry`
and `entry_contents` and returns `ret`; when `read_file` has freed
`entry_contents` already, that is a double free. -/
def payload_read_failed (r2 : ReadResult) : Exit :=
  if r2.freed then Exit.double_free else Exit.returned r2.ret

/-- The body of the loop `for (int i = 0; i < dt_entry_count; i++)`: both
reads open `filename` as it is in the file system at that moment. -/
def extract_entry (env : Env) (filename out_dir : List Char)
    (hdr : dt_table_header) (i : Nat) (st : Store) : Step :=
  let file := st (env.resolve filename)
  let entry0 := malloc env.junk hdr.dt_entry_size
  let ppos := entry_pos hdr i
  let r1 := read_file file entry0 ppos 32
  if r1.ret < 0 then
    ⟨some (Exit.returned r1.ret), st,
      [Event.read_entry i ppos 32, Event.error "Failed to read DT entry"]⟩
  else
    let entry := r1.buf
    let entry_offset := field env.host env.junk entry 4
    let entry_size := field env.host env.junk entry 0
    let id := field env.host env.junk entry 8
    let rev := field env.host env.junk entry 12
    let custom := [field env.host env.junk entry 16, field env.host env.junk entry 20,
      field env.host env.junk entry 24, field env.host env.junk entry 28]
    let contents0 := malloc env.junk entry_size
    let r2 := read_file file contents0 entry_offset entry_size
    let ev := [Event.read_entry i ppos 32, Event.found i id rev custom entry_size entry_offset,
      Event.read_payload i entry_offset entry_size]
    if r2.ret < 0 then
      ⟨some (payload_read_failed r2), st,
        ev ++ [Event.error "Failed to read DT entry contents"]⟩
    else
      let s := store_dtb env out_dir i id rev custom entry_size r2.buf st
      ⟨s.abort, s.out, ev ++ s.log⟩

/-- The result of a run of `main`: how it ends, the file system it leaves and
its trace. -/
structure Run where
  ret : Exit
  out : Store
  log : List Event

/-- The loop over the entries: `n` iterations are left, `i` is the counter.
An iteration in which the run ends ends the walk; when none is left `main`
returns 0. -/
def walk (env : Env) (filename out_dir : List Char)
    (hdr : dt_table_header) : Nat → Nat → Store → Run
  | 0, _, st => ⟨Exit.returned 0, st, []⟩
  | n + 1, i, st =>
    let s := extract_entry env filename out_dir hdr i st
    match s.abort with
    | some r => ⟨r, s.out, s.log⟩
    | none =>
      let r := walk env filename out_dir hdr n (i + 1) s.out
      ⟨r.ret, r.out, s.log ++ r.log⟩

/-! ## `main` -/

/-- The option loop of `main` over `argv`, from the position reached:
`filename` and `out_dir` are the two variables.  The result is the `EINVAL`
return, or the variables after the loop. -/
def parse_args : List (List Char) → Option (List Char) → List Char →
    Except String (Option (List Char) × List Char)
  | [], filename, out_dir => Except.ok (filename, out_dir)
  | a :: rest, filename, out_dir =>
    if a = "-i".data ∨ a = "--input".data then
      match rest with
      | [] => Except.error "Please specify filename with -i argument"
      | v :: rest2 => parse_args rest2 (some v) out_dir
    else if a = "-o".data ∨ a = "--output".data then
      match rest with
      | [] => Except.error "Please specify directory with -o argument"
      | v :: rest2 => parse_args rest2 (some v) out_dir
    else parse_args rest filename out_dir

/-- The part of `main` behind the header lines: the entries are walked when
the magic is valid and the count is not zero. -/
def dump_entries (env : Env) (filename out_dir : List Char)
    (hdr : dt_table_header) (st : Store) : Run :=
  if hdr.magic = DT_TABLE_MAGIC ∧ hdr.dt_entry_count ≠ 0 then
    walk env filename out_dir hdr hdr.dt_entry_count 0 st
  else ⟨Exit.returned 0, st, []⟩

/-- The header as `main` has it after reading the whole of `img` into
`dtbo_file`. -/
def read_header (env : Env) (img : List Byte) : dt_table_header :=
  decode_header env.host env.junk
    (read_file (some img) (malloc env.junk img.length) 0 img.length).buf

/-- The part of `main` after the option loop, for a file name. -/
def dump (env : Env) (filename out_dir : List Char) (st : Store) : Run :=
  let file := st (env.resolve filename)
  -- stat(filename, &st); dtbo_sz = st.st_size: indeterminate when the file is
  -- missing (0 stands for it; the read fails at `open` whatever the value)
  let dtbo_sz := match file with
    | some data => data.length
    | none => 0
  let r := read_file file (malloc env.junk dtbo_sz) 0 dtbo_sz
  if r.ret < 0 then
    ⟨Exit.returned r.ret, st, [Event.read_image dtbo_sz, Event.error "Failed to read"]⟩
  else
    let hdr := decode_header env.host env.junk r.buf
    let w := dump_entries env filename out_dir hdr st
    ⟨w.ret, w.out,
      [Event.read_image dtbo_sz, Event.header hdr (hdr.magic = DT_TABLE_MAGIC)] ++ w.log⟩

/-- The function `main`: `argv` is the argument vector, `st` the file system
before the run. -/
def main (env : Env) (argv : List (List Char)) (st : Store) : Run :=
  match parse_args argv none "./".data with
  | Except.error msg => ⟨Exit.returned EINVAL, st, [Event.usage msg]⟩
  | Except.ok (none, _) =>
    ⟨Exit.returned EINVAL, st, [Event.usage "DTBO filename is not defined"]⟩
  | Except.ok (some filename, out_dir) => dump env filename out_dir st

/-! ## Test data -/

/-- A byte list from numerals. -/
def bytes (l : List Nat) : List Byte := l.map (Fin.ofNat)

/-- The image of the scenario: one entry of four bytes at offset 64. -/
def sampleImage : List Byte :=
  bytes [0xd7, 0xb7, 0xab, 0x1e, 0, 0, 0, 68, 0, 0, 0, 32, 0, 0, 0, 32,
         0, 0, 0, 1, 0, 0, 0, 32, 0, 0, 0, 0, 0, 0, 0, 0,
         0, 0, 0, 4, 0, 0, 0, 64, 0, 0, 0, 1, 0, 0, 0, 0,
         0, 0, 0, 0, 0, 0, 0, 0, 0, 0, 0, 0, 0, 0, 0, 0,
         0xde, 0xad, 0xbe, 0xef]

/-- An environment in which every path leads to the file of that name, every
output file can be created and written, and fresh memory holds `0xaa`. -/
def sampleEnv (h : Host) : Env where
  host := h
  junk := fun _ => 0xaa
  resolve := fun p => p
  open_fails := fun _ => false
  write_fails := fun _ => false

/-- A file system with the single file `dtbo.img`. -/
def imageStore (img : List Byte) : Store :=
  fun p => if p = "dtbo.img".data then some img else none

/-- An image of two entries; the payload offset of the second is `0x80000000`. -/
def twoEntryImage : List Byte :=
  bytes [0xd7, 0xb7, 0xab, 0x1e, 0, 0, 0, 100, 0, 0, 0, 32, 0, 0, 0, 32,
         0, 0, 0, 2, 0, 0, 0, 32, 0, 0, 0, 0, 0, 0, 0, 0,
         0, 0, 0, 4, 0, 0, 0, 96, 0, 0, 0, 1, 0, 0, 0, 0,
         0, 0, 0, 0, 0, 0, 0, 0, 0, 0, 0, 0, 0, 0, 0, 0,
         0, 0, 0, 4, 0x80, 0, 0, 0, 0, 0, 0, 2, 0, 0, 0, 0,
         0, 0, 0, 0, 0, 0, 0, 0, 0, 0, 0, 0, 0, 0, 0, 0,
         0xde, 0xad, 0xbe, 0xef]

/-- The command line `umkdtimg -i dtbo.img`. -/
def sampleArgv : List (List Char) := ["umkdtimg".data, "-i".data, "dtbo.img".data]

/-- The file system of the scenario when the file of the first entry is there
already, six bytes long. -/
def staleStore : Store :=
  fun p => if p = "dtbo.img".data then some sampleImage
    else if p = "./01_0x0001_0x0000.dtb".data then some (bytes [1, 2, 3, 4, 5, 6]) else none

/-- The command line `umkdtimg -i dtbo.img -o out`. -/
def outputArgv : List (List Char) :=
  ["umkdtimg".data, "-i".data, "dtbo.img".data, "-o".data, "out".data]

/-! ## The file name as the specification words it -/

/-- Exactly two decimal digits. -/
def two_digits (n : Nat) : List Char :=
  [Nat.digitChar (n / 10), Nat.digitChar (n % 10)]

/-- Exactly four hexadecimal digits. -/
def four_hex (n : Nat) : List Char :=
  [Nat.digitChar (n / 4096), Nat.digitChar (n / 256 % 16), Nat.digitChar (n / 16 % 16),
    Nat.digitChar (n % 16)]

/-- The name `NN_0xIIII_0xRRRR.dtb` of the specification: `NN` is the 1-based
index, `IIII` the id, `RRRR` the revision. -/
def spec_name (i id rev : Nat) : List Char :=
  two_digits (i + 1) ++ "_0x".data ++ four_hex id ++ "_0x".data ++ four_hex rev ++ ".dtb".data

/-- The size of the block allocated for `realPath`: `strlen (out_dir) + 32`. -/
def real_path_alloc (out_dir : List Char) : Nat := out_dir.length + 32

/-- The size of the block allocated for the entry record:
`htobe32 (header->dt_entry_size)`. -/
def entry_alloc (hdr : dt_table_header) : Nat := hdr.dt_entry_size

/-- The value of `sizeof (struct dt_table_entry)`, the number of bytes asked for
when an entry record is read: eight 32-bit fields. -/
def sizeof_dt_table_entry : Nat := 8 * 4

/-- The command line `umkdtimg -o out`. -/
def outputOnlyArgv : List (List Char) := ["umkdtimg".data, "-o".data, "out".data]

/-- An environment like `sampleEnv` in which fresh memory holds zeros. -/
def zeroEnv (h : Host) : Env where
  host := h
  junk := fun _ => 0
  resolve := fun p => p
  open_fails := fun _ => false
  write_fails := fun _ => false

/-- An environment like `sampleEnv` in which the file of the first entry of
`strideImage` cannot be opened for writing. -/
def lockedEnv (h : Host) : Env where
  host := h
  junk := fun _ => 0xaa
  resolve := fun p => p
  open_fails := fun p => decide (p = "./01_0x0001_0x0000.dtb".data)
  write_fails := fun _ => false

/-- An image of 24 bytes: a header cut behind `dt_entries_offset`, with one
entry announced at offset 24. -/
def shortImage : List Byte :=
  bytes [0xd7, 0xb7, 0xab, 0x1e, 0, 0, 0, 24, 0, 0, 0, 32, 0, 0, 0, 32,
         0, 0, 0, 1, 0, 0, 0, 24]

/-- The scenario image with `dt_size = 0` and `dt_offset = 0x80000000` in its
entry. -/
def emptyPayloadImage : List Byte :=
  bytes [0xd7, 0xb7, 0xab, 0x1e, 0, 0, 0, 64, 0, 0, 0, 32, 0, 0, 0, 32,
         0, 0, 0, 1, 0, 0, 0, 32, 0, 0, 0, 0, 0, 0, 0, 0,
         0, 0, 0, 0, 0x80, 0, 0, 0, 0, 0, 0, 1, 0, 0, 0, 0,
         0, 0, 0, 0, 0, 0, 0, 0, 0, 0, 0, 0, 0, 0, 0, 0]

/-- The scenario image with `dt_entry_size = 16` in its header. -/
def smallEntryImage : List Byte :=
  bytes [0xd7, 0xb7, 0xab, 0x1e, 0, 0, 0, 68, 0, 0, 0, 32, 0, 0, 0, 16,
         0, 0, 0, 1, 0, 0, 0, 32, 0, 0, 0, 0, 0, 0, 0, 0,
         0, 0, 0, 4, 0, 0, 0, 64, 0, 0, 0, 1, 0, 0, 0, 0,
         0, 0, 0, 0, 0, 0, 0, 0, 0, 0, 0, 0, 0, 0, 0, 0,
         0xde, 0xad, 0xbe, 0xef]

/-- The scenario image with `dt_entry_count = 0` in its header. -/
def noEntryImage : List Byte :=
  bytes [0xd7, 0xb7, 0xab, 0x1e, 0, 0, 0, 32, 0, 0, 0, 32, 0, 0, 0, 32,
         0, 0, 0, 0, 0, 0, 0, 32, 0, 0, 0, 0, 0, 0, 0, 0]

/-- An image of two entries with `dt_entry_size = 48`: records at offsets 32 and
80, payloads `DE AD BE EF` at offset 112 and `CA FE BA BE` at offset 116. -/
def strideImage : List Byte :=
  bytes [0xd7, 0xb7, 0xab, 0x1e, 0, 0, 0, 120, 0, 0, 0, 32, 0, 0, 0, 48,
         0, 0, 0, 2, 0, 0, 0, 32, 0, 0, 0, 0, 0, 0, 0, 0,
         0, 0, 0, 4, 0, 0, 0, 112, 0, 0, 0, 1, 0, 0, 0, 0,
         0, 0, 0, 0, 0, 0, 0, 0, 0, 0, 0, 0, 0, 0, 0, 0,
         0, 0, 0, 0, 0, 0, 0, 0, 0, 0, 0, 0, 0, 0, 0, 0,
         0, 0, 0, 4, 0, 0, 0, 116, 0, 0, 0, 2, 0, 0, 0, 0,
         0, 0, 0, 0, 0, 0, 0, 0, 0, 0, 0, 0, 0, 0, 0, 0,
         0xde, 0xad, 0xbe, 0xef, 0xca, 0xfe, 0xba, 0xbe]

/-- The scenario image with `dt_size = 0` and `dt_offset = 0x7fffffff`, far
behind the end of the image, in its entry. -/
def emptyEntryImage : List Byte :=
  bytes [0xd7, 0xb7, 0xab, 0x1e, 0, 0, 0, 64, 0, 0, 0, 32, 0, 0, 0, 32,
         0, 0, 0, 1, 0, 0, 0, 32, 0, 0, 0, 0, 0, 0, 0, 0,
         0, 0, 0, 0, 0x7f, 0xff, 0xff, 0xff, 0, 0, 0, 1, 0, 0, 0, 0,
         0, 0, 0, 0, 0, 0, 0, 0, 0, 0, 0, 0, 0, 0, 0, 0]

/-! ## Byte order and buffers -/

theorem htobe32_load32 (h : Host) (b0 b1 b2 b3 : Byte) :
    htobe32 h (load32 h b0 b1 b2 b3) = be32 b0 b1 b2 b3 := by
  have h0 := b0.isLt
  have h1 := b1.isLt
  have h2 := b2.isLt
  have h3 := b3.isLt
  cases h
  · simp only [htobe32, load32, bswap32, be32]
    omega
  · rfl

theorem toInt32_of_lt {x : Nat} (h : x < 2 ^ 31) : toInt32 x = (x : Int) := by
  have h2 : x % 2 ^ 32 = x := Nat.mod_eq_of_lt (by omega)
  unfold toInt32
  rw [h2, if_pos h]

theorem toInt32_nonneg_of_lt {x : Nat} (h : x < 2 ^ 31) : ¬ toInt32 x < 0 := by
  rw [toInt32_of_lt h]
  omega

theorem getD_of_drop {l : List Byte} {k j : Nat} {x d : Byte}
    (h : (l.drop k)[j]? = some x) : l.getD (k + j) d = x := by
  rw [List.getElem?_drop] at h
  simp [List.getD_eq_getElem?_getD, h]

theorem field_eq_of_be32At {h : Host} {junk : Nat → Byte} {buf : List Byte} {k v : Nat}
    (hv : be32At buf k = some v) : field h junk buf k = v := by
  unfold be32At at hv
  split at hv
  · rename_i b0 b1 b2 b3 tl hd
    have e0 : byteAt junk buf k = b0 := by
      have := getD_of_drop (l := buf) (k := k) (j := 0) (x := b0) (d := junk k) (by simp [hd])
      simpa [byteAt] using this
    have e1 : byteAt junk buf (k + 1) = b1 :=
      getD_of_drop (by simp [hd])
    have e2 : byteAt junk buf (k + 2) = b2 :=
      getD_of_drop (by simp [hd])
    have e3 : byteAt junk buf (k + 3) = b3 :=
      getD_of_drop (by simp [hd])
    simp only [field, e0, e1, e2, e3, htobe32_load32]
    exact Option.some.inj hv
  · exact absurd hv (by simp)

theorem be32At_isSome {l : List Byte} {k : Nat} (h : k + 4 ≤ l.length) :
    ∃ v, be32At l k = some v := by
  unfold be32At
  have hl : (l.drop k).length = l.length - k := List.length_drop k l
  match hd : l.drop k with
  | [] => simp [hd] at hl; omega
  | [_] => simp [hd] at hl; omega
  | [_, _] => simp [hd] at hl; omega
  | [_, _, _] => simp [hd] at hl; omega
  | b0 :: b1 :: b2 :: b3 :: _ => exact ⟨_, rfl⟩

theorem be32At_length {l : List Byte} {k v : Nat} (h : be32At l k = some v) :
    k + 4 ≤ l.length := by
  unfold be32At at h
  split at h
  · rename_i b0 b1 b2 b3 tl hd
    have hl : (l.drop k).length = l.length - k := List.length_drop k l
    simp [hd] at hl
    omega
  · exact absurd h (by simp)

theorem be32At_eq_some_iff {l : List Byte} {k v : Nat} :
    be32At l k = some v ↔ ∃ b0 b1 b2 b3, l[k]? = some b0 ∧ l[k + 1]? = some b1 ∧
      l[k + 2]? = some b2 ∧ l[k + 3]? = some b3 ∧ be32 b0 b1 b2 b3 = v := by
  constructor
  · intro h
    unfold be32At at h
    split at h
    · rename_i b0 b1 b2 b3 tl hd
      refine ⟨b0, b1, b2, b3, ?_, ?_, ?_, ?_, Option.some.inj h⟩
      · have : (l.drop k)[0]? = some b0 := by simp [hd]
        simpa [List.getElem?_drop] using this
      · have : (l.drop k)[1]? = some b1 := by simp [hd]
        simpa [List.getElem?_drop] using this
      · have : (l.drop k)[2]? = some b2 := by simp [hd]
        simpa [List.getElem?_drop] using this
      · have : (l.drop k)[3]? = some b3 := by simp [hd]
        simpa [List.getElem?_drop] using this
    · exact absurd h (by simp)
  · rintro ⟨b0, b1, b2, b3, h0, h1, h2, h3, hv⟩
    have l0 : k < l.length := (List.getElem?_eq_some_iff.mp h0).1
    have l1 : k + 1 < l.length := (List.getElem?_eq_some_iff.mp h1).1
    have l2 : k + 2 < l.length := (List.getElem?_eq_some_iff.mp h2).1
    have l3 : k + 3 < l.length := (List.getElem?_eq_some_iff.mp h3).1
    have e0 : l[k] = b0 := (List.getElem?_eq_some_iff.mp h0).2
    have e1 : l[k + 1] = b1 := (List.getElem?_eq_some_iff.mp h1).2
    have e2 : l[k + 2] = b2 := (List.getElem?_eq_some_iff.mp h2).2
    have e3 : l[k + 3] = b3 := (List.getElem?_eq_some_iff.mp h3).2
    unfold be32At
    rw [List.drop_eq_getElem_cons l0, List.drop_eq_getElem_cons l1,
      List.drop_eq_getElem_cons l2, List.drop_eq_getElem_cons l3]
    simp [e0, e1, e2, e3, hv]

/-- A field of a buffer that starts with `n` bytes read at offset `o` of `img`
is the big-endian value `img` has there. -/
theorem be32At_read {img rest : List Byte} {o n k v : Nat} (hk : k + 4 ≤ n)
    (hv : be32At img (o + k) = some v) :
    be32At ((img.drop o).take n ++ rest) k = some v := by
  have hlen := be32At_length hv
  obtain ⟨b0, b1, b2, b3, h0, h1, h2, h3, hb⟩ := be32At_eq_some_iff.mp hv
  have hl : ((img.drop o).take n).length = min n (img.length - o) := by simp
  refine be32At_eq_some_iff.mpr ⟨b0, b1, b2, b3, ?_, ?_, ?_, ?_, hb⟩
  · rw [List.getElem?_append_left (by omega), List.getElem?_take_of_lt (by omega),
      List.getElem?_drop]
    exact h0
  · rw [List.getElem?_append_left (by omega), List.getElem?_take_of_lt (by omega),
      List.getElem?_drop, ← Nat.add_assoc]
    exact h1
  · rw [List.getElem?_append_left (by omega), List.getElem?_take_of_lt (by omega),
      List.getElem?_drop, ← Nat.add_assoc]
    exact h2
  · rw [List.getElem?_append_left (by omega), List.getElem?_take_of_lt (by omega),
      List.getElem?_drop, ← Nat.add_assoc]
    exact h3

theorem field_read {h : Host} {junk : Nat → Byte} {img rest : List Byte} {o n k v : Nat}
    (hk : k + 4 ≤ n) (hv : be32At img (o + k) = some v) :
    field h junk ((img.drop o).take n ++ rest) k = v :=
  field_eq_of_be32At (be32At_read hk hv)

/-! ## Reads that succeed -/

theorem read_file_some (img buf : List Byte) (o count : Nat) (ho : o < 2 ^ 31) :
    read_file (some img) buf (o : Int) count =
      ⟨0, (img.drop o).take (min (min count (img.length - o)) MAX_RW_COUNT)
        ++ buf.drop (min (min count (img.length - o)) MAX_RW_COUNT), false⟩ := by
  have h1 : ¬ ((o : Int) < 0) := by omega
  have h2 : ¬ toInt32 o < 0 := toInt32_nonneg_of_lt ho
  have h3 : ¬ toInt32 (min (min count (img.length - o)) MAX_RW_COUNT) < 0 := by
    apply toInt32_nonneg_of_lt
    have : min (min count (img.length - o)) MAX_RW_COUNT ≤ MAX_RW_COUNT := Nat.min_le_right _ _
    simp only [MAX_RW_COUNT] at this ⊢
    omega
  simp only [read_file, h1, if_false, Int.toNat_ofNat, h2, h3]

/-- A field of `dtbo_file` after the whole image was read into it. -/
theorem image_field (h : Host) (junk : Nat → Byte) (img : List Byte) {k v : Nat}
    (hk : k + 4 ≤ MAX_RW_COUNT) (hv : be32At img k = some v) :
    field h junk (read_file (some img) (malloc junk img.length) 0 img.length).buf k = v := by
  have hl := be32At_length hv
  have hr := read_file_some img (malloc junk img.length) 0 img.length (by norm_num)
  simp only [Nat.cast_zero] at hr
  rw [hr]
  apply field_read
  · simp only [MAX_RW_COUNT] at hk ⊢
    omega
  · simpa using hv

theorem image_read_ok (junk : Nat → Byte) (img : List Byte) :
    ¬ (read_file (some img) (malloc junk img.length) 0 img.length).ret < 0 := by
  have hr := read_file_some img (malloc junk img.length) 0 img.length (by norm_num)
  simp only [Nat.cast_zero] at hr
  rw [hr]
  simp

/-- The run of `main` on a readable image, in terms of the header it decodes. -/
theorem main_eq_of_image (env : Env) (argv : List (List Char)) (filename out_dir : List Char)
    (st : Store) (img : List Byte)
    (hargs : parse_args argv none "./".data = Except.ok (some filename, out_dir))
    (hfile : st (env.resolve filename) = some img) :
    main env argv st =
      ⟨(dump_entries env filename out_dir (read_header env img) st).ret,
       (dump_entries env filename out_dir (read_header env img) st).out,
       [Event.read_image img.length,
        Event.header (read_header env img)
          (decide ((read_header env img).magic = DT_TABLE_MAGIC))]
        ++ (dump_entries env filename out_dir (read_header env img) st).log⟩ := by
  simp only [main, hargs, dump, hfile, if_neg (image_read_ok env.junk img), read_header]

theorem store_dtb_abort_ne {env : Env} {out_dir : List Char} {i id rev : Nat}
    {custom : List Nat} {size : Nat} {contents : List Byte} {st : Store} {r : Exit}
    (h : (store_dtb env out_dir i id rev custom size contents st).abort = some r) :
    ∃ v, r = Exit.returned v ∧ v < 0 := by
  simp only [store_dtb] at h
  split_ifs at h <;> simp only [Option.some.injEq, reduceCtorEq] at h
  · exact ⟨-1, h.symm, by omega⟩
  · exact ⟨-1, h.symm, by omega⟩
  · exact ⟨_, h.symm, by assumption⟩

theorem extract_entry_abort_ne {env : Env} {filename out_dir : List Char}
    {hdr : dt_table_header} {i : Nat} {st : Store} {r : Exit}
    (h : (extract_entry env filename out_dir hdr i st).abort = some r) :
    r ≠ Exit.returned 0 := by
  simp only [extract_entry] at h
  split_ifs at h with h1 h2
  · simp only [Option.some.injEq] at h
    rw [← h]
    intro e
    rw [Exit.returned.injEq] at e
    omega
  · simp only [Option.some.injEq] at h
    rw [← h]
    unfold payload_read_failed
    split_ifs
    · exact fun e => Exit.noConfusion e
    · intro e
      rw [Exit.returned.injEq] at e
      omega
  · obtain ⟨v, hv, hneg⟩ := store_dtb_abort_ne h
    rw [hv]
    intro e
    rw [Exit.returned.injEq] at e
    omega

theorem store_dtb_log_entry {env : Env} {out_dir : List Char} {i id rev : Nat}
    {custom : List Nat} {size : Nat} {contents : List Byte} {st : Store} {e : Event} {k : Nat}
    (he : e ∈ (store_dtb env out_dir i id rev custom size contents st).log)
    (hk : e.entry = some k) : k = i := by
  simp only [store_dtb] at he
  split_ifs at he <;> simp only [List.mem_cons, List.mem_singleton, List.not_mem_nil,
    or_false] at he <;> rcases he with rfl | rfl | rfl <;> simp_all [Event.entry]

theorem extract_entry_log_entry {env : Env} {filename out_dir : List Char}
    {hdr : dt_table_header} {i : Nat} {st : Store} {e : Event} {k : Nat}
    (he : e ∈ (extract_entry env filename out_dir hdr i st).log)
    (hk : e.entry = some k) : k = i := by
  simp only [extract_entry] at he
  split_ifs at he
  · simp only [List.mem_cons, List.mem_singleton, List.not_mem_nil, or_false] at he
    rcases he with rfl | rfl <;> simp_all [Event.entry]
  · simp only [List.mem_append, List.mem_cons, List.mem_singleton, List.not_mem_nil,
      or_false] at he
    rcases he with (rfl | rfl | rfl) | rfl <;> simp_all [Event.entry]
  · simp only [List.mem_append, List.mem_cons, List.mem_singleton, List.not_mem_nil,
      or_false] at he
    rcases he with (rfl | rfl | rfl) | he
    · simp_all [Event.entry]
    · simp_all [Event.entry]
    · simp_all [Event.entry]
    · exact store_dtb_log_entry he hk

theorem create_keeps (st : Store) (path p : List Char) (c : List Byte)
    (h : st p = some c) : st.create path p = some c := by
  unfold Store.create
  split_ifs with hp
  · subst hp
    simp [h]
  · exact h

/-- An iteration that returns leaves every file there is as it is. -/
theorem extract_entry_abort_keeps {env : Env} {filename out_dir : List Char} {hdr : dt_table_header} {i : Nat} {st : Store} {r : Exit}
    (h : (extract_entry env filename out_dir hdr i st).abort = some r)
    (p : List Char) (c : List Byte) (hp : st p = some c) :
    (extract_entry env filename out_dir hdr i st).out p = some c := by
  simp only [extract_entry] at h ⊢
  split_ifs at h ⊢ with h1 h2
  · exact hp
  · exact hp
  · simp only at h ⊢
    simp only [store_dtb] at h ⊢
    split_ifs at h ⊢
    · exact hp
    · exact create_keeps _ _ _ _ hp
    · exact create_keeps _ _ _ _ hp

/-! ## The walk -/

theorem walk_add (env : Env) (filename out_dir : List Char) (hdr : dt_table_header)
    (a b : Nat) : ∀ (j : Nat) (st : Store),
    (walk env filename out_dir hdr a j st).ret = Exit.returned 0 →
    walk env filename out_dir hdr (a + b) j st =
      ⟨(walk env filename out_dir hdr b (j + a) (walk env filename out_dir hdr a j st).out).ret,
       (walk env filename out_dir hdr b (j + a) (walk env filename out_dir hdr a j st).out).out,
       (walk env filename out_dir hdr a j st).log ++
         (walk env filename out_dir hdr b (j + a) (walk env filename out_dir hdr a j st).out).log⟩ := by
  induction a with
  | zero =>
    intro j st _
    simp [walk]
  | succ a ih =>
    intro j st h
    have e : a + 1 + b = (a + b) + 1 := by omega
    rw [e]
    simp only [walk] at h ⊢
    cases hs : (extract_entry env filename out_dir hdr j st).abort with
    | some r =>
      rw [hs] at h
      simp only at h
      exact absurd h (extract_entry_abort_ne hs)
    | none =>
      rw [hs] at h
      simp only at h ⊢
      rw [ih (j + 1) _ h]
      have e2 : j + 1 + a = j + (a + 1) := by omega
      simp only [e2, List.append_assoc]

theorem walk_log_entry (env : Env) (filename out_dir : List Char)
    (hdr : dt_table_header) (n : Nat) : ∀ (j : Nat) (st : Store) (e : Event) (k : Nat),
    e ∈ (walk env filename out_dir hdr n j st).log → e.entry = some k → j ≤ k ∧ k < j + n := by
  induction n with
  | zero =>
    intro j st e k he
    simp [walk] at he
  | succ n ih =>
    intro j st e k he hk
    simp only [walk] at he
    cases hs : (extract_entry env filename out_dir hdr j st).abort with
    | some r =>
      rw [hs] at he
      simp only at he
      have := extract_entry_log_entry he hk
      omega
    | none =>
      rw [hs] at he
      simp only [List.mem_append] at he
      rcases he with he | he
      · have := extract_entry_log_entry he hk
        omega
      · have := ih (j + 1) _ e k he hk
        omega

/-! ## Entries inside the image -/

theorem entry_pos_exact (hdr : dt_table_header) (i : Nat)
    (h : hdr.dt_entries_offset + i * hdr.dt_entry_size < 2 ^ 31) :
    entry_pos hdr i = ((hdr.dt_entries_offset + i * hdr.dt_entry_size : Nat) : Int) := by
  have hi : (i % 2 ^ 32) * hdr.dt_entry_size = i * hdr.dt_entry_size := by
    rcases Nat.eq_zero_or_pos hdr.dt_entry_size with h0 | h0
    · simp [h0]
    · have : i ≤ i * hdr.dt_entry_size := Nat.le_mul_of_pos_right i h0
      rw [Nat.mod_eq_of_lt (by omega)]
  unfold entry_pos
  rw [hi, Nat.mod_eq_of_lt (a := i * hdr.dt_entry_size) (by omega),
    Nat.mod_eq_of_lt (by omega)]
  exact toInt32_of_lt h

theorem store_dtb_write_mem {env : Env} {out_dir : List Char} {i id rev : Nat}
    {custom : List Nat} {size : Nat} {contents : List Byte} {st : Store}
    {k : Nat} {p : List Char} {b : List Byte}
    (h : Event.write k p b ∈ (store_dtb env out_dir i id rev custom size contents st).log) :
    p = real_path out_dir i id rev ∧ b = contents.take (min size MAX_RW_COUNT) := by
  simp only [store_dtb] at h
  split_ifs at h <;> simp at h
  all_goals exact h.2

theorem store_dtb_done {env : Env} {out_dir : List Char} {i id rev : Nat}
    {custom : List Nat} {size : Nat} {contents : List Byte} {st : Store}
    (h : (store_dtb env out_dir i id rev custom size contents st).abort = none) :
    Event.write i (real_path out_dir i id rev) (contents.take (min size MAX_RW_COUNT))
      ∈ (store_dtb env out_dir i id rev custom size contents st).log := by
  simp only [store_dtb] at h ⊢
  split_ifs at h ⊢ <;> simp at h ⊢

theorem walk_write_mem (env : Env) (filename out_dir : List Char)
    (hdr : dt_table_header) (n : Nat) : ∀ (j : Nat) (st : Store) (i : Nat) (p : List Char)
    (b : List Byte), Event.write i p b ∈ (walk env filename out_dir hdr n j st).log →
    ∃ st2, Event.write i p b ∈ (extract_entry env filename out_dir hdr i st2).log := by
  induction n with
  | zero =>
    intro j st i p b he
    simp [walk] at he
  | succ n ih =>
    intro j st i p b he
    simp only [walk] at he
    cases hs : (extract_entry env filename out_dir hdr j st).abort with
    | some r =>
      rw [hs] at he
      simp only at he
      have hij : i = j := extract_entry_log_entry he rfl
      exact ⟨st, hij ▸ he⟩
    | none =>
      rw [hs] at he
      simp only [List.mem_append] at he
      rcases he with he | he
      · have hij : i = j := extract_entry_log_entry he rfl
        exact ⟨st, hij ▸ he⟩
      · exact ih (j + 1) _ i p b he

theorem walk_done_step (env : Env) (filename out_dir : List Char)
    (hdr : dt_table_header) (n : Nat) : ∀ (j : Nat) (st : Store) (i : Nat),
    (walk env filename out_dir hdr n j st).ret = Exit.returned 0 → j ≤ i → i < j + n →
    ∃ st2, (extract_entry env filename out_dir hdr i st2).abort = none ∧
      ∀ e ∈ (extract_entry env filename out_dir hdr i st2).log,
        e ∈ (walk env filename out_dir hdr n j st).log := by
  induction n with
  | zero =>
    intro j st i _ h1 h2
    omega
  | succ n ih =>
    intro j st i h h1 h2
    simp only [walk] at h ⊢
    cases hs : (extract_entry env filename out_dir hdr j st).abort with
    | some r =>
      rw [hs] at h
      simp only at h
      exact absurd h (extract_entry_abort_ne hs)
    | none =>
      rw [hs] at h
      simp only at h ⊢
      rcases Nat.eq_or_lt_of_le h1 with hij | hij
      · subst hij
        exact ⟨st, hs, fun e he => List.mem_append_left _ he⟩
      · obtain ⟨st2, ha, hl⟩ := ih (j + 1) _ i h (by omega) (by omega)
        exact ⟨st2, ha, fun e he => List.mem_append_right _ (hl e he)⟩

/-! ## Header fields -/

theorem read_header_spec (env : Env) (img : List Byte) (h : 32 ≤ img.length) :
    be32At img 0 = some (read_header env img).magic ∧
    be32At img 4 = some (read_header env img).total_size ∧
    be32At img 8 = some (read_header env img).header_size ∧
    be32At img 12 = some (read_header env img).dt_entry_size ∧
    be32At img 16 = some (read_header env img).dt_entry_count ∧
    be32At img 20 = some (read_header env img).dt_entries_offset ∧
    be32At img 24 = some (read_header env img).page_size ∧
    be32At img 28 = some (read_header env img).version := by
  have key : ∀ k, k + 4 ≤ 32 → be32At img k = some (field env.host env.junk
      (read_file (some img) (malloc env.junk img.length) 0 img.length).buf k) := by
    intro k hk
    obtain ⟨v, hv⟩ := be32At_isSome (l := img) (k := k) (by omega)
    rw [hv, image_field env.host env.junk img (by simp only [MAX_RW_COUNT]; omega) hv]
  exact ⟨key 0 (by norm_num), key 4 (by norm_num), key 8 (by norm_num), key 12 (by norm_num),
    key 16 (by norm_num), key 20 (by norm_num), key 24 (by norm_num), key 28 (by norm_num)⟩

theorem read_header_magic (env : Env) (img : List Byte) {m : Nat}
    (h : be32At img 0 = some m) : (read_header env img).magic = m :=
  image_field env.host env.junk img (by simp only [MAX_RW_COUNT]; omega) h

theorem read_header_entry_count (env : Env) (img : List Byte) {v : Nat}
    (h : be32At img 16 = some v) : (read_header env img).dt_entry_count = v :=
  image_field env.host env.junk img (by simp only [MAX_RW_COUNT]; omega) h

/-- C2: for every image of at least 32 bytes, the eight header fields are the
big-endian values of the 4-byte groups at offsets 0, 4, ..., 28 of the image,
whatever the byte order of the host (`env.host`); `main` reports these fields
and walks the entries with them. -/
theorem header_fields_big_endian (env : Env) (argv : List (List Char))
    (filename out_dir : List Char) (st : Store) (img : List Byte)
    (hargs : parse_args argv none "./".data = Except.ok (some filename, out_dir))
    (hfile : st (env.resolve filename) = some img) (hlen : 32 ≤ img.length) :
    (be32At img 0 = some (read_header env img).magic ∧
     be32At img 4 = some (read_header env img).total_size ∧
     be32At img 8 = some (read_header env img).header_size ∧
     be32At img 12 = some (read_header env img).dt_entry_size ∧
     be32At img 16 = some (read_header env img).dt_entry_count ∧
     be32At img 20 = some (read_header env img).dt_entries_offset ∧
     be32At img 24 = some (read_header env img).page_size ∧
     be32At img 28 = some (read_header env img).version) ∧
    main env argv st =
      ⟨(dump_entries env filename out_dir (read_header env img) st).ret,
       (dump_entries env filename out_dir (read_header env img) st).out,
       [Event.read_image img.length,
        Event.header (read_header env img)
          (decide ((read_header env img).magic = DT_TABLE_MAGIC))]
        ++ (dump_entries env filename out_dir (read_header env img) st).log⟩ :=
  ⟨read_header_spec env img hlen, main_eq_of_image env argv filename out_dir st img hargs hfile⟩

/-- C3: when the first four bytes of the image do not decode to
`0xD7B7AB1E`, the run consists of the read of the image and the report of the
header: no entry record is read, no output file is created or written, the
file system is unchanged and `main` returns 0. -/
theorem invalid_magic_no_walk (env : Env) (argv : List (List Char))
    (filename out_dir : List Char) (st : Store) (img : List Byte) (m : Nat)
    (hargs : parse_args argv none "./".data = Except.ok (some filename, out_dir))
    (hfile : st (env.resolve filename) = some img)
    (hmagic : be32At img 0 = some m) (hne : m ≠ DT_TABLE_MAGIC) :
    main env argv st =
      ⟨Exit.returned 0, st,
        [Event.read_image img.length, Event.header (read_header env img) false]⟩ := by
  have hm : (read_header env img).magic ≠ DT_TABLE_MAGIC := by
    rw [read_header_magic env img hmagic]
    exact hne
  rw [main_eq_of_image env argv filename out_dir st img hargs hfile]
  simp [dump_entries, hm]

/-! ## The extraction of an entry inside the image -/

theorem store_dtb_ok (env : Env) (out_dir : List Char) (i id rev : Nat)
    (custom : List Nat) (size : Nat) (contents : List Byte) (st : Store)
    (ho : env.open_fails (real_path out_dir i id rev) = false)
    (hw : env.write_fails (real_path out_dir i id rev) = false) :
    store_dtb env out_dir i id rev custom size contents st =
      ⟨none, (st.create (env.resolve (real_path out_dir i id rev))).write
          (env.resolve (real_path out_dir i id rev)) (contents.take (min size MAX_RW_COUNT)),
        [Event.create i (real_path out_dir i id rev),
         Event.write i (real_path out_dir i id rev) (contents.take (min size MAX_RW_COUNT)),
         Event.stored i id rev custom]⟩ := by
  have h3 : ¬ toInt32 (min size MAX_RW_COUNT) < 0 := by
    apply toInt32_nonneg_of_lt
    have : min size MAX_RW_COUNT ≤ MAX_RW_COUNT := Nat.min_le_right _ _
    simp only [MAX_RW_COUNT] at this ⊢
    omega
  simp only [store_dtb, ho, hw, h3, Bool.false_eq_true, if_false]

/-- An iteration whose record is read in full and has a `dt_offset` below
`2 ^ 31`: some buffer goes on to `store_dtb`. -/
theorem extract_entry_stores (env : Env) (img : List Byte) (filename out_dir : List Char)
    (hdr : dt_table_header) (i : Nat) (st : Store) (pos dsz doff id rev : Nat)
    (hf : st (env.resolve filename) = some img)
    (hpos : entry_pos hdr i = (pos : Int)) (hp31 : pos < 2 ^ 31)
    (hrec : pos + 32 ≤ img.length)
    (hdsz : be32At img pos = some dsz) (hdoff : be32At img (pos + 4) = some doff)
    (hid : be32At img (pos + 8) = some id) (hrev : be32At img (pos + 12) = some rev)
    (hoff : doff < 2 ^ 31) :
    ∃ custom contents, extract_entry env filename out_dir hdr i st =
      ⟨(store_dtb env out_dir i id rev custom dsz contents st).abort,
       (store_dtb env out_dir i id rev custom dsz contents st).out,
       [Event.read_entry i pos 32, Event.found i id rev custom dsz doff,
        Event.read_payload i doff dsz]
        ++ (store_dtb env out_dir i id rev custom dsz contents st).log⟩ := by
  have hn : min (min 32 (img.length - pos)) MAX_RW_COUNT = 32 := by
    simp only [MAX_RW_COUNT]
    omega
  have r1 := read_file_some img (malloc env.junk hdr.dt_entry_size) pos 32 hp31
  rw [hn] at r1
  have f0 : field env.host env.junk
      ((img.drop pos).take 32 ++ (malloc env.junk hdr.dt_entry_size).drop 32) 0 = dsz :=
    field_read (by norm_num) (by simpa using hdsz)
  have f4 : field env.host env.junk
      ((img.drop pos).take 32 ++ (malloc env.junk hdr.dt_entry_size).drop 32) 4 = doff :=
    field_read (by norm_num) hdoff
  have f8 : field env.host env.junk
      ((img.drop pos).take 32 ++ (malloc env.junk hdr.dt_entry_size).drop 32) 8 = id :=
    field_read (by norm_num) hid
  have f12 : field env.host env.junk
      ((img.drop pos).take 32 ++ (malloc env.junk hdr.dt_entry_size).drop 32) 12 = rev :=
    field_read (by norm_num) hrev
  have r2 := read_file_some img (malloc env.junk dsz) doff dsz hoff
  refine ⟨[field env.host env.junk
      ((img.drop pos).take 32 ++ (malloc env.junk hdr.dt_entry_size).drop 32) 16,
    field env.host env.junk
      ((img.drop pos).take 32 ++ (malloc env.junk hdr.dt_entry_size).drop 32) 20,
    field env.host env.junk
      ((img.drop pos).take 32 ++ (malloc env.junk hdr.dt_entry_size).drop 32) 24,
    field env.host env.junk
      ((img.drop pos).take 32 ++ (malloc env.junk hdr.dt_entry_size).drop 32) 28],
    (img.drop doff).take (min (min dsz (img.length - doff)) MAX_RW_COUNT)
      ++ (malloc env.junk dsz).drop (min (min dsz (img.length - doff)) MAX_RW_COUNT), ?_⟩
  simp only [extract_entry, hf, hpos, r1, f0, f4, f8, f12, r2, lt_self_iff_false, if_false]

/-- Witness of C2: the scenario image on a big-endian host. -/
theorem header_fields_big_endian_witness :
    (read_header (sampleEnv Host.big) sampleImage).dt_entries_offset = 32 ∧
    be32At sampleImage 20
      = some (read_header (sampleEnv Host.big) sampleImage).dt_entries_offset :=
  ⟨by decide, (header_fields_big_endian (sampleEnv Host.big) sampleArgv
    "dtbo.img".data "./".data (imageStore sampleImage) sampleImage rfl (by decide)
    (by decide)).1.2.2.2.2.2.1⟩

/-- Witness of C3: an image of four zero bytes followed by the rest of the
scenario image. -/
theorem invalid_magic_no_walk_witness :
    main (sampleEnv Host.little) sampleArgv
        (imageStore (bytes [0, 0, 0, 0] ++ sampleImage.drop 4)) =
      ⟨Exit.returned 0, imageStore (bytes [0, 0, 0, 0] ++ sampleImage.drop 4),
        [Event.read_image (bytes [0, 0, 0, 0] ++ sampleImage.drop 4).length,
         Event.header (read_header (sampleEnv Host.little)
          (bytes [0, 0, 0, 0] ++ sampleImage.drop 4)) false]⟩ :=
  invalid_magic_no_walk (sampleEnv Host.little) sampleArgv "dtbo.img".data "./".data
    (imageStore (bytes [0, 0, 0, 0] ++ sampleImage.drop 4))
    (bytes [0, 0, 0, 0] ++ sampleImage.drop 4) 0 rfl (by decide) (by decide) (by decide)

/-! ## Where the entry records are read -/

theorem fmt_x_four (n : Nat) (h : n < 65536) : fmt_x 4 n = four_hex n := by
  have d0 : Nat.digitChar 0 = '0' := rfl
  have hm : n % 2 ^ 32 = n := Nat.mod_eq_of_lt (by omega)
  simp only [fmt_x, hm, digits, four_hex]
  by_cases h1 : n < 16
  · have a : n / 4096 = 0 := by omega
    have b : n / 256 % 16 = 0 := by omega
    have c : n / 16 % 16 = 0 := by omega
    have d : n % 16 = n := by omega
    simp [h1, zeroPad, a, b, c, d, d0, List.replicate]
  · by_cases h2 : n / 16 < 16
    · have a : n / 4096 = 0 := by omega
      have b : n / 256 % 16 = 0 := by omega
      have c : n / 16 % 16 = n / 16 := by omega
      simp [h1, h2, zeroPad, a, b, c, d0, List.replicate]
    · by_cases h3 : n / 16 / 16 < 16
      · have a : n / 4096 = 0 := by omega
        have b : n / 256 % 16 = n / 16 / 16 := by omega
        simp [h1, h2, h3, zeroPad, a, b, d0, List.replicate]
      · have h4 : n / 16 / 16 / 16 < 16 := by omega
        have a : n / 4096 = n / 16 / 16 / 16 := by omega
        have b : n / 256 % 16 = n / 16 / 16 % 16 := by omega
        simp [h1, h2, h3, h4, zeroPad, a, b]

theorem fmt_d_two (i : Nat) (h : i < 99) : fmt_d 2 (toInt32 (i + 1)) = two_digits (i + 1) := by
  have d0 : Nat.digitChar 0 = '0' := rfl
  have ht : toInt32 (i + 1) = ((i + 1 : Nat) : Int) := toInt32_of_lt (by omega)
  have hn : ¬ (((i + 1 : Nat) : Int) < 0) := by omega
  rw [ht]
  simp only [fmt_d, hn, if_false, Int.toNat_ofNat, digits, two_digits]
  by_cases h1 : i + 1 < 10
  · have a : (i + 1) / 10 = 0 := by omega
    have b : (i + 1) % 10 = i + 1 := by omega
    simp [h1, zeroPad, a, b, d0, List.replicate]
  · have h2 : (i + 1) / 10 < 10 := by omega
    simp [h1, h2, zeroPad]

/-- C5 (amended): for every 0-based index `i` below 99 and every id and rev
below `0x10000`, the file name is exactly `NN_0xIIII_0xRRRR.dtb`: `i + 1` in two
decimal digits, id and rev in four hexadecimal digits each, 20 characters in
all.  (The widths are minimum widths: larger values give longer names.) -/
theorem file_name_exact (i id rev : Nat) (hi : i < 99) (hid : id < 65536)
    (hrev : rev < 65536) :
    file_name i id rev = spec_name i id rev ∧ (file_name i id rev).length = 20 := by
  have e : file_name i id rev = spec_name i id rev := by
    simp only [file_name, spec_name, fmt_x_four id hid, fmt_x_four rev hrev, fmt_d_two i hi]
  refine ⟨e, ?_⟩
  rw [e]
  simp [spec_name, two_digits, four_hex]

/-- Witness of C5 (amended): the name of the scenario. -/
theorem file_name_exact_witness :
    file_name 0 1 0 = spec_name 0 1 0 ∧ (file_name 0 1 0).length = 20 :=
  file_name_exact 0 1 0 (by decide) (by decide) (by decide)

/-- C5 as stated fails: an id of five hexadecimal digits, and the index 99,
give names of 21 characters. -/
theorem file_name_longer :
    file_name 0 0x12345 0 = "01_0x12345_0x0000.dtb".data ∧
    (file_name 0 0x12345 0).length = 21 ∧
    file_name 99 1 0 = "100_0x0001_0x0000.dtb".data ∧
    (file_name 99 1 0).length = 21 := by
  decide

/-- C8: for a non-empty directory `d` that does not end in `'/'`, the path
built from `d` and the path built from `d` followed by `'/'` are the same:
`d`, one `'/'`, the file name. -/
theorem real_path_trailing_separator (d : List Char) (i id rev : Nat) (hne : d ≠ [])
    (hlast : d.getLast? ≠ some '/') :
    real_path d i id rev = real_path (d ++ ['/']) i id rev ∧
    real_path d i id rev = d ++ '/' :: file_name i id rev := by
  have _ := hne
  have h2 : (d ++ ['/']).getLast? = some '/' := by simp
  simp only [real_path, if_neg hlast, h2, if_true]
  simp

/-- Witness of C8: the directory `out`. -/
theorem real_path_trailing_separator_witness :
    real_path "out".data 0 1 0 = real_path ("out".data ++ ['/']) 0 1 0 ∧
    real_path "out".data 0 1 0 = "out".data ++ '/' :: file_name 0 1 0 :=
  real_path_trailing_separator "out".data 0 1 0 (by decide) (by decide)

/-! ## Where the code departs from its documentation -/

/-- C6, the code at a truncated image: the payload range `[64, 68)` of the
scenario is cut at offset 66.  The read is short and yet no failure: `main`
returns 0 and the file holds the two bytes there are, followed by two bytes
of uninitialised memory. -/
theorem short_read_is_no_failure :
    (sampleImage.take 66).length = 66 ∧
    read_file (some (sampleImage.take 66)) (malloc (fun _ => 0xaa) 4) 64 4
      = ⟨0, bytes [0xde, 0xad, 0xaa, 0xaa], false⟩ ∧
    (main (sampleEnv Host.little) sampleArgv (imageStore (sampleImage.take 66))).ret
      = Exit.returned 0 ∧
    (main (sampleEnv Host.little) sampleArgv (imageStore (sampleImage.take 66))).out
      "./01_0x0001_0x0000.dtb".data = some (bytes [0xde, 0xad, 0xaa, 0xaa]) := by
  decide

/-- C7, the code at a file system that holds a longer file of the same name:
the four payload bytes replace the first four bytes, the last two bytes of the
old contents stay. -/
theorem stale_bytes_remain :
    staleStore "./01_0x0001_0x0000.dtb".data = some (bytes [1, 2, 3, 4, 5, 6]) ∧
    (main (sampleEnv Host.little) sampleArgv staleStore).ret = Exit.returned 0 ∧
    (main (sampleEnv Host.little) sampleArgv staleStore).out
      "./01_0x0001_0x0000.dtb".data = some (bytes [0xde, 0xad, 0xbe, 0xef, 5, 6]) := by
  decide

/-- C10, the code at `umkdtimg -i dtbo.img -o out`: the argument of `-o`
becomes the input file name, the output directory stays `./`; the run fails
to read `out` and leaves the file system as it was. -/
theorem output_option_sets_filename :
    parse_args outputArgv none "./".data = Except.ok (some "out".data, "./".data) ∧
    (main (sampleEnv Host.little) outputArgv (imageStore sampleImage)).ret
      = Exit.returned (-1) ∧
    (∀ p, (main (sampleEnv Host.little) outputArgv (imageStore sampleImage)).out p
      = imageStore sampleImage p) :=
  ⟨rfl, by decide, fun _ => rfl⟩

/-! ## The claims on the command line, short images and buffers -/

/-- C11, the code at `umkdtimg -o out`, a command line without `-i`: the
argument of `-o` becomes the input file name, no usage message is printed, the
program goes on to read `out` and returns -1, not `EINVAL`. -/
theorem output_only_reads_file :
    parse_args outputOnlyArgv none "./".data = Except.ok (some "out".data, "./".data) ∧
    (main (sampleEnv Host.little) outputOnlyArgv (imageStore sampleImage)).ret
      = Exit.returned (-1) ∧
    (main (sampleEnv Host.little) outputOnlyArgv (imageStore sampleImage)).ret
      ≠ Exit.returned EINVAL ∧
    (∃ n, (main (sampleEnv Host.little) outputOnlyArgv (imageStore sampleImage)).log
      = [Event.read_image n, Event.error "Failed to read"]) ∧
    (main (sampleEnv Host.little) ["umkdtimg".data, "-o".data, "dtbo.img".data]
      (imageStore sampleImage)).out "./01_0x0001_0x0000.dtb".data
      = some (bytes [0xde, 0xad, 0xbe, 0xef]) :=
  ⟨rfl, by decide, by decide, ⟨0, by decide⟩, by decide⟩

/-- C12, the code at an image of 24 bytes: the read of the header is no
failure, `page_size` and `version` are decoded from the memory behind the 24
bytes read, the entry announced is walked and a file is created for it; `main`
returns 0. -/
theorem short_header_is_no_failure :
    shortImage.length = 24 ∧
    (main (zeroEnv Host.little) sampleArgv (imageStore shortImage)).ret = Exit.returned 0 ∧
    (main (zeroEnv Host.little) sampleArgv (imageStore shortImage)).log
      = [Event.read_image 24,
         Event.header ⟨DT_TABLE_MAGIC, 24, 32, 32, 1, 24, 0, 0⟩ true,
         Event.read_entry 0 24 32, Event.found 0 0 0 [0, 0, 0, 0] 0 0,
         Event.read_payload 0 0 0, Event.create 0 "./01_0x0000_0x0000.dtb".data,
         Event.write 0 "./01_0x0000_0x0000.dtb".data [], Event.stored 0 0 0 [0, 0, 0, 0]] ∧
    (main (zeroEnv Host.little) sampleArgv (imageStore shortImage)).out
      "./01_0x0000_0x0000.dtb".data = some [] ∧
    (read_header (sampleEnv Host.little) shortImage).version = 0xaaaaaaaa := by
  decide

/-- C15, the code at entry index 99999 with `id = rev = 0xffffffff` in the
directory `./`: the path and its terminating NUL take 35 bytes, the block
allocated has 34.  (In the directory `out` the index 9999 is enough.) -/
theorem real_path_exceeds_alloc :
    (real_path "./".data 99999 0xffffffff 0xffffffff
      = "./100000_0xffffffff_0xffffffff.dtb".data) ∧
    (real_path "./".data 99999 0xffffffff 0xffffffff).length + 1 = 35 ∧
    real_path_alloc "./".data = 34 ∧
    (real_path "out".data 9999 0xffffffff 0xffffffff).length + 1 = 36 ∧
    real_path_alloc "out".data = 35 := by
  decide

/-- C16, the code at a header with `dt_entry_size = 16`: the block allocated for
the entry record has 16 bytes, 32 bytes are read into it, and the fields
`custom` are decoded from bytes 16 to 32. -/
theorem entry_read_exceeds_alloc :
    entry_alloc (read_header (sampleEnv Host.little) smallEntryImage) = 16 ∧
    (malloc (fun _ => 0xaa) 16).length = 16 ∧
    sizeof_dt_table_entry = 32 ∧
    (read_file (some smallEntryImage) (malloc (fun _ => 0xaa) 16) 32 32).buf.length = 32 ∧
    Event.read_entry 0 32 32
      ∈ (main (sampleEnv Host.little) sampleArgv (imageStore smallEntryImage)).log ∧
    Event.found 0 1 0 [0, 0, 0, 0] 4 64
      ∈ (main (sampleEnv Host.little) sampleArgv (imageStore smallEntryImage)).log ∧
    (main (sampleEnv Host.little) sampleArgv (imageStore smallEntryImage)).ret
      = Exit.returned 0 := by
  decide

/-! ## No entries, the exit status, failed reads of the payload -/

/-- C14: on a readable image with valid magic and `dt_entry_count = 0` the
run consists of the read of the image and the report of the header: no entry
record is read, no output file is created, the file system is unchanged and
`main` returns 0. -/
theorem zero_count_no_walk (env : Env) (argv : List (List Char))
    (filename out_dir : List Char) (st : Store) (img : List Byte)
    (hargs : parse_args argv none "./".data = Except.ok (some filename, out_dir))
    (hfile : st (env.resolve filename) = some img)
    (hmagic : be32At img 0 = some DT_TABLE_MAGIC)
    (hcount : be32At img 16 = some 0) :
    main env argv st =
      ⟨Exit.returned 0, st,
        [Event.read_image img.length, Event.header (read_header env img) true]⟩ := by
  have e0 := read_header_magic env img hmagic
  have e16 := read_header_entry_count env img hcount
  rw [main_eq_of_image env argv filename out_dir st img hargs hfile]
  simp [dump_entries, e0, e16]

/-- Witness of C14: the header of the scenario with a count of zero. -/
theorem zero_count_no_walk_witness :
    main (sampleEnv Host.little) sampleArgv (imageStore noEntryImage) =
      ⟨Exit.returned 0, imageStore noEntryImage, [Event.read_image noEntryImage.length,
        Event.header (read_header (sampleEnv Host.little) noEntryImage) true]⟩ :=
  zero_count_no_walk (sampleEnv Host.little) sampleArgv "dtbo.img".data
    "./".data (imageStore noEntryImage) noEntryImage rfl (by decide) (by decide) (by decide)

set_option maxRecDepth 100000 in
/-- C9, the code at an image whose second entry has the payload offset
`0x80000000`: the seek succeeds, the `int` it is stored in is negative,
`read_file` frees `entry_contents` and returns, and `main` frees it again: the
run ends in a double free, not in a return.  (When the output file cannot be
opened, the sibling path, `main` frees once and returns -1.) -/
theorem payload_read_failure_frees_twice :
    read_file (some twoEntryImage) (malloc (fun _ => 0xaa) 4) 0x80000000 4
      = ⟨-2147483648, malloc (fun _ => 0xaa) 4, true⟩ ∧
    (main (sampleEnv Host.little) sampleArgv (imageStore twoEntryImage)).ret
      = Exit.double_free ∧
    exit_status (main (sampleEnv Host.little) sampleArgv (imageStore twoEntryImage)).ret
      = none ∧
    (main (sampleEnv Host.little) sampleArgv (imageStore twoEntryImage)).log
      = [Event.read_image 100, Event.header ⟨DT_TABLE_MAGIC, 100, 32, 32, 2, 32, 0, 0⟩ true,
         Event.read_entry 0 32 32, Event.found 0 1 0 [0, 0, 0, 0] 4 96,
         Event.read_payload 0 96 4, Event.create 0 "./01_0x0001_0x0000.dtb".data,
         Event.write 0 "./01_0x0001_0x0000.dtb".data (bytes [0xde, 0xad, 0xbe, 0xef]),
         Event.stored 0 1 0 [0, 0, 0, 0],
         Event.read_entry 1 64 32, Event.found 1 2 0 [0, 0, 0, 0] 4 0x80000000,
         Event.read_payload 1 0x80000000 4,
         Event.error "Failed to read DT entry contents"] ∧
    (main (lockedEnv Host.little) sampleArgv (imageStore strideImage)).ret
      = Exit.returned (-1) := by
  decide

/-- C13, the code at an entry with `dt_size = 0` and `dt_offset = 0x80000000`:
the seek succeeds, but its result is negative as an `int`; `read_file` reports
a failure, the extraction fails and no file is created; `entry_contents` is
freed twice on the way out. -/
theorem empty_payload_fails_beyond_int :
    be32At emptyPayloadImage 32 = some 0 ∧
    be32At emptyPayloadImage 36 = some 0x80000000 ∧
    read_file (some emptyPayloadImage) (malloc (fun _ => 0xaa) 0) 0x80000000 0
      = ⟨-2147483648, [], true⟩ ∧
    (main (sampleEnv Host.little) sampleArgv (imageStore emptyPayloadImage)).ret
      = Exit.double_free ∧
    (main (sampleEnv Host.little) sampleArgv (imageStore emptyPayloadImage)).log
      = [Event.read_image 64, Event.header ⟨DT_TABLE_MAGIC, 64, 32, 32, 1, 32, 0, 0⟩ true,
         Event.read_entry 0 32 32, Event.found 0 1 0 [0, 0, 0, 0] 0 0x80000000,
         Event.read_payload 0 0x80000000 0,
         Event.error "Failed to read DT entry contents"] ∧
    (main (sampleEnv Host.little) sampleArgv (imageStore emptyPayloadImage)).out
      "./01_0x0001_0x0000.dtb".data = none := by
  decide

/-! ## A failure ends the walk -/

theorem toInt32_lt (x : Nat) : toInt32 x < 2 ^ 31 := by
  have h : x % 2 ^ 32 < 2 ^ 32 := Nat.mod_lt _ (by norm_num)
  unfold toInt32
  split_ifs with hc
  · omega
  · omega

/-- A failing read of an entry record returns -1. -/
theorem read_file_record_fails (file : Option (List Byte)) (buf : List Byte) (x : Nat)
    (h : (read_file file buf (toInt32 x) 32).ret < 0) :
    (read_file file buf (toInt32 x) 32).ret = -1 := by
  have hx := toInt32_lt x
  cases file with
  | none => rfl
  | some data =>
    by_cases hneg : toInt32 x < 0
    · simp [read_file, hneg]
    · exfalso
      have hnat : (toInt32 x).toNat < 2 ^ 31 := by omega
      have h1 : ¬ toInt32 (toInt32 x).toNat < 0 := toInt32_nonneg_of_lt hnat
      have h2 : ¬ toInt32 (min (min 32 (data.length - (toInt32 x).toNat)) MAX_RW_COUNT) < 0 := by
        apply toInt32_nonneg_of_lt
        have : min (min 32 (data.length - (toInt32 x).toNat)) MAX_RW_COUNT ≤ 32 :=
          (Nat.min_le_left _ _).trans (Nat.min_le_left _ _)
        omega
      simp only [read_file, hneg, if_false, h1, h2] at h
      omega

/-- A failing read has freed the buffer, or could not open the file and
returns -1. -/
theorem read_file_fails (file : Option (List Byte)) (buf : List Byte) (off : Int)
    (count : Nat) (h : (read_file file buf off count).ret < 0) :
    (read_file file buf off count).freed = true ∨
    ((read_file file buf off count).freed = false ∧
      (read_file file buf off count).ret = -1) := by
  cases file with
  | none => exact Or.inr ⟨rfl, rfl⟩
  | some data =>
    left
    simp only [read_file] at h ⊢
    split_ifs at h ⊢ <;> first | rfl | (exfalso; simp at h)

theorem store_dtb_abort_cases {env : Env} {out_dir : List Char} {i id rev : Nat}
    {custom : List Nat} {size : Nat} {contents : List Byte} {st : Store} {r : Exit}
    (h : (store_dtb env out_dir i id rev custom size contents st).abort = some r) :
    r = Exit.returned (-1) := by
  have h3 : ¬ toInt32 (min size MAX_RW_COUNT) < 0 := by
    apply toInt32_nonneg_of_lt
    have : min size MAX_RW_COUNT ≤ MAX_RW_COUNT := Nat.min_le_right _ _
    simp only [MAX_RW_COUNT] at this ⊢
    omega
  simp only [store_dtb] at h
  split_ifs at h
  all_goals first
    | exact absurd ‹toInt32 (min size MAX_RW_COUNT) < 0› h3
    | (simp only [Option.some.injEq] at h; exact h.symm)

/-- An iteration in which the run ends ends it by a return of -1 or by a double
free. -/
theorem extract_entry_abort_cases {env : Env} {filename out_dir : List Char}
    {hdr : dt_table_header} {i : Nat} {st : Store} {r : Exit}
    (h : (extract_entry env filename out_dir hdr i st).abort = some r) :
    r = Exit.returned (-1) ∨ r = Exit.double_free := by
  simp only [extract_entry] at h
  split_ifs at h with h1 h2
  · simp only [Option.some.injEq] at h
    left
    rw [← h]
    exact congrArg Exit.returned (read_file_record_fails _ _ _ h1)
  · simp only [Option.some.injEq] at h
    rw [← h]
    rcases read_file_fails _ _ _ _ h2 with hf | ⟨hf, hr⟩
    · right
      simp only [payload_read_failed, hf, if_true]
    · left
      simp only [payload_read_failed, hf, hr]
      rfl
  · left
    exact store_dtb_abort_cases h

/-- When the first `i` entries were extracted and the extraction of entry `i`
does not run to its end, the run ends there, by a return of -1 (exit status
255) or by a double free: nothing in the trace belongs to an entry behind `i`,
and every file there is after the first `i` extractions is still there with the
same contents. -/
theorem failure_ends_walk (env : Env) (argv : List (List Char)) (filename out_dir : List Char)
    (st : Store) (img : List Byte) (i : Nat) (r : Exit)
    (hargs : parse_args argv none "./".data = Except.ok (some filename, out_dir))
    (hfile : st (env.resolve filename) = some img)
    (hmagic : be32At img 0 = some DT_TABLE_MAGIC)
    (hi : i < (read_header env img).dt_entry_count)
    (hpre : (walk env filename out_dir (read_header env img) i 0 st).ret = Exit.returned 0)
    (hfail : (extract_entry env filename out_dir (read_header env img) i
      (walk env filename out_dir (read_header env img) i 0 st).out).abort = some r) :
    (main env argv st).ret = r ∧
    ((r = Exit.returned (-1) ∧ exit_status r = some 255) ∨ r = Exit.double_free) ∧
    (∀ e ∈ (main env argv st).log, ∀ j, e.entry = some j → j ≤ i) ∧
    (∀ p c, (walk env filename out_dir (read_header env img) i 0 st).out p = some c →
      (main env argv st).out p = some c) := by
  have e0 : (read_header env img).magic = DT_TABLE_MAGIC := read_header_magic env img hmagic
  have hcases : (r = Exit.returned (-1) ∧ exit_status r = some 255) ∨ r = Exit.double_free := by
    rcases extract_entry_abort_cases hfail with h | h
    · left
      rw [h]
      exact ⟨rfl, rfl⟩
    · exact Or.inr h
  obtain ⟨m, hm⟩ : ∃ m, (read_header env img).dt_entry_count = i + (m + 1) :=
    ⟨(read_header env img).dt_entry_count - i - 1, by omega⟩
  have hw := walk_add env filename out_dir (read_header env img) i (m + 1) 0 st hpre
  simp only [Nat.zero_add, walk, hfail] at hw
  rw [main_eq_of_image env argv filename out_dir st img hargs hfile]
  have hc : (read_header env img).magic = DT_TABLE_MAGIC ∧
      (read_header env img).dt_entry_count ≠ 0 := ⟨e0, by omega⟩
  have hd : dump_entries env filename out_dir (read_header env img) st =
      ⟨r, (extract_entry env filename out_dir (read_header env img) i
          (walk env filename out_dir (read_header env img) i 0 st).out).out,
        (walk env filename out_dir (read_header env img) i 0 st).log ++
          (extract_entry env filename out_dir (read_header env img) i
            (walk env filename out_dir (read_header env img) i 0 st).out).log⟩ := by
    simp only [dump_entries]
    rw [if_pos hc, hm]
    exact hw
  rw [hd]
  refine ⟨rfl, hcases, ?_, ?_⟩
  · intro e he j hj
    simp only [List.mem_append, List.mem_cons, List.mem_singleton, List.not_mem_nil,
      or_false] at he
    rcases he with (rfl | rfl) | he | he
    · simp [Event.entry] at hj
    · simp [Event.entry] at hj
    · have := walk_log_entry env filename out_dir (read_header env img) i 0 st e j he hj
      omega
    · have := extract_entry_log_entry he hj
      omega
  · intro p c hp
    exact extract_entry_abort_keeps hfail p c hp

set_option maxRecDepth 100000 in
/-- The two ways a failure ends the walk.  `strideImage` when the file of entry 0
cannot be opened: `main` returns -1.  `twoEntryImage`, whose second payload
cannot be read: the run ends in a double free, and the file of entry 0 stays. -/
theorem failure_ends_walk_at :
    ((main (lockedEnv Host.little) sampleArgv (imageStore strideImage)).ret
        = Exit.returned (-1) ∧
      ∀ e ∈ (main (lockedEnv Host.little) sampleArgv (imageStore strideImage)).log,
        ∀ j, e.entry = some j → j ≤ 0) ∧
    ((main (sampleEnv Host.little) sampleArgv (imageStore twoEntryImage)).ret
        = Exit.double_free ∧
      (main (sampleEnv Host.little) sampleArgv (imageStore twoEntryImage)).out
        "./01_0x0001_0x0000.dtb".data = some (bytes [0xde, 0xad, 0xbe, 0xef])) :=
  have h0 := failure_ends_walk (lockedEnv Host.little) sampleArgv "dtbo.img".data "./".data
    (imageStore strideImage) strideImage 0 (Exit.returned (-1)) rfl (by decide) (by decide)
    (by decide) (by decide) (by decide)
  have h1 := failure_ends_walk (sampleEnv Host.little) sampleArgv "dtbo.img".data "./".data
    (imageStore twoEntryImage) twoEntryImage 1 Exit.double_free rfl (by decide) (by decide)
    (by decide) (by decide) (by decide)
  ⟨⟨h0.1, h0.2.2.1⟩,
   ⟨h1.1, h1.2.2.2 "./01_0x0001_0x0000.dtb".data (bytes [0xde, 0xad, 0xbe, 0xef])
     (by decide)⟩⟩

/-! ## An empty payload -/

/-- An entry whose record lies inside the image at an offset below `2 ^ 31`,
with `dt_size = 0` and a `dt_offset` below `2 ^ 31` (inside the image or not),
whose output file can be opened and written: the iteration runs to its end, the
file is created and no byte is written to it; it is empty when no file of that
name was there before. -/
theorem empty_payload_below_int (env : Env) (img : List Byte) (filename out_dir : List Char)
    (hdr : dt_table_header) (i : Nat) (st : Store) (doff id rev : Nat)
    (hf : st (env.resolve filename) = some img)
    (hpos : hdr.dt_entries_offset + i * hdr.dt_entry_size < 2 ^ 31)
    (hrec : hdr.dt_entries_offset + i * hdr.dt_entry_size + 32 ≤ img.length)
    (hdsz : be32At img (hdr.dt_entries_offset + i * hdr.dt_entry_size) = some 0)
    (hdoff : be32At img (hdr.dt_entries_offset + i * hdr.dt_entry_size + 4) = some doff)
    (hid : be32At img (hdr.dt_entries_offset + i * hdr.dt_entry_size + 8) = some id)
    (hrev : be32At img (hdr.dt_entries_offset + i * hdr.dt_entry_size + 12) = some rev)
    (hoff : doff < 2 ^ 31)
    (hopen : env.open_fails (real_path out_dir i id rev) = false)
    (hwrite : env.write_fails (real_path out_dir i id rev) = false) :
    (extract_entry env filename out_dir hdr i st).abort = none ∧
    Event.create i (real_path out_dir i id rev)
      ∈ (extract_entry env filename out_dir hdr i st).log ∧
    Event.write i (real_path out_dir i id rev) []
      ∈ (extract_entry env filename out_dir hdr i st).log ∧
    (st (env.resolve (real_path out_dir i id rev)) = none →
      (extract_entry env filename out_dir hdr i st).out
        (env.resolve (real_path out_dir i id rev)) = some []) := by
  obtain ⟨custom, contents, hc⟩ := extract_entry_stores env img filename out_dir hdr i st
    (hdr.dt_entries_offset + i * hdr.dt_entry_size) 0 doff id rev hf
    (entry_pos_exact hdr i hpos) hpos hrec hdsz hdoff hid hrev hoff
  have hs := store_dtb_ok env out_dir i id rev custom 0 contents st hopen hwrite
  have hb : contents.take (min 0 MAX_RW_COUNT) = [] := by simp
  rw [hb] at hs
  rw [hs] at hc
  rw [hc]
  refine ⟨rfl, by simp, by simp, ?_⟩
  intro hnone
  simp [Store.write, Store.create, hnone]

/-- The entry of `emptyEntryImage`, whose empty payload lies at offset
`0x7fffffff`: the file is created empty. -/
theorem empty_payload_below_int_at :
    (extract_entry (sampleEnv Host.little) "dtbo.img".data "./".data
      (read_header (sampleEnv Host.little) emptyEntryImage) 0
      (imageStore emptyEntryImage)).abort = none ∧
    (extract_entry (sampleEnv Host.little) "dtbo.img".data "./".data
      (read_header (sampleEnv Host.little) emptyEntryImage) 0
      (imageStore emptyEntryImage)).out "./01_0x0001_0x0000.dtb".data = some [] :=
  have h := empty_payload_below_int (sampleEnv Host.little) emptyEntryImage
    "dtbo.img".data "./".data (read_header (sampleEnv Host.little) emptyEntryImage) 0
    (imageStore emptyEntryImage) 0x7fffffff 1 0 (by decide) (by decide) (by decide)
    (by decide) (by decide) (by decide) (by decide) (by decide) (by decide) (by decide)
  ⟨h.1, h.2.2.2 (by decide)⟩

end Umkdtimg
